import Mathlib

/-!
Shallow embedding of `src/web/mmix-playground.py` (an MMIX playground:
a `StorageManager` over browser localStorage, and an `MMIXPlayground`
class orchestrating an external assembler and simulator).

Modelling conventions:
* localStorage is modelled as a record `Store` with one field per key the
  code uses (`mmix.currentCode`, `mmix.currentArgs`, `mmix.programs`,
  `mmix.uploadedFiles`); `none` means the key is absent.  JSON
  serialisation (`json.dumps`/`json.loads`) of the program and file lists
  is abstracted as the identity round-trip, so the store holds the parsed
  lists directly.
* A raising localStorage (quota errors, corrupt JSON) is modelled by the
  boolean `Store.fail`: when it is `true` every underlying localStorage
  access raises, and the Python `try`/`except` blocks take their `except`
  branch.  Lean functions are total, so "never propagates an exception"
  becomes: the method is a function returning the documented default.
* Methods that mutate storage are state-passing: they return the new
  `Store` (paired with their Python return value where there is one).
* `js.Date.now()` is an explicit `ts : Nat` argument.
-/

/-- An entry of the `mmix.programs` list: `{"name": ..., "code": ...,
"timestamp": ...}` (see `StorageManager.save_program`). -/
structure Program where
  name : String
  code : String
  timestamp : Nat
deriving Repr, DecidableEq

/-- An entry of the `mmix.uploadedFiles` list: `{"name": ..., "content": ...}`
(see `StorageManager.save_uploaded_file`). -/
structure UploadedFile where
  name : String
  content : String
deriving Repr, DecidableEq

/-- The browser localStorage as seen through the four keys the code uses.
`fail = true` models a localStorage whose operations raise. -/
structure Store where
  currentCode : Option String := none
  currentArgs : Option String := none
  programs : Option (List Program) := none
  uploadedFiles : Option (List UploadedFile) := none
  fail : Bool := false
deriving Repr, DecidableEq

/-- A fresh browser profile: no keys stored, localStorage working. -/
def Store.empty : Store := {}

namespace StorageManager

/-- `save_current_code` (lines 16-21): `localStorage.setItem(CURRENT_CODE_KEY,
code)` inside `try`/`except` (the method returns `None`). -/
def save_current_code (code : String) (s : Store) : Store :=
  if s.fail then s else { s with currentCode := some code }

/-- `load_current_code` (lines 23-30): `getItem` then
`return code if code else ""`; `""` on exception. -/
def load_current_code (s : Store) : String :=
  if s.fail then ""
  else
    match s.currentCode with
    | none => ""
    | some code => if code = "" then "" else code

/-- `save_current_args` (lines 32-37). -/
def save_current_args (args : String) (s : Store) : Store :=
  if s.fail then s else { s with currentArgs := some args }

/-- `load_current_args` (lines 39-46). -/
def load_current_args (s : Store) : String :=
  if s.fail then ""
  else
    match s.currentArgs with
    | none => ""
    | some args => if args = "" then "" else args

/-- `get_programs` (lines 72-81): parse the stored JSON list, `[]` when the
key is absent or anything raises. -/
def get_programs (s : Store) : List Program :=
  if s.fail then [] else s.programs.getD []

/-- The loop body of `save_program` (lines 53-65): update the code and
timestamp of the first entry named `name` (the loop `break`s at the first
match), otherwise append a fresh entry. -/
def updateProgram (name code : String) (ts : Nat) : List Program → List Program
  | [] => [⟨name, code, ts⟩]
  | p :: rest =>
      if p.name = name then ⟨name, code, ts⟩ :: rest
      else p :: updateProgram name code ts rest

/-- `save_program` (lines 48-70): read the list, update-or-append, write it
back; returns `True` on success, `False` when localStorage raises. -/
def save_program (name code : String) (ts : Nat) (s : Store) : Bool × Store :=
  if s.fail then (false, s)
  else
    let programs := get_programs s
    let programs := updateProgram name code ts programs
    (true, { s with programs := some programs })

/-- `delete_program` (lines 83-92): keep every entry whose name differs,
write the filtered list back. -/
def delete_program (name : String) (s : Store) : Bool × Store :=
  if s.fail then (false, s)
  else
    (true, { s with programs := some ((get_programs s).filter (fun p => p.name ≠ name)) })

/-- `get_uploaded_files` (lines 113-122). -/
def get_uploaded_files (s : Store) : List UploadedFile :=
  if s.fail then [] else s.uploadedFiles.getD []

/-- The loop body of `save_uploaded_file` (lines 99-106): replace the
content of the first entry named `filename`, otherwise append. -/
def updateFile (filename content : String) : List UploadedFile → List UploadedFile
  | [] => [⟨filename, content⟩]
  | f :: rest =>
      if f.name = filename then ⟨filename, content⟩ :: rest
      else f :: updateFile filename content rest

/-- `save_uploaded_file` (lines 94-111). -/
def save_uploaded_file (filename content : String) (s : Store) : Bool × Store :=
  if s.fail then (false, s)
  else
    let files := get_uploaded_files s
    let files := updateFile filename content files
    (true, { s with uploadedFiles := some files })

/-- `delete_uploaded_file` (lines 124-133). -/
def delete_uploaded_file (filename : String) (s : Store) : Bool × Store :=
  if s.fail then (false, s)
  else
    (true, { s with uploadedFiles := some ((get_uploaded_files s).filter (fun f => f.name ≠ filename)) })

end StorageManager

/-- An example program from the embedded JSON (`self.examples` maps a key to
an object with "name" and "code" fields; see `load_examples` and
`load_example`). -/
structure Example where
  name : String
  code : String
deriving Repr, DecidableEq

/-- Python dict lookup `examples[key]` / `key in examples`, with the dict
modelled as an association list. -/
def lookupExample (key : String) : List (String × Example) → Option Example
  | [] => none
  | (k, ex) :: rest => if k = key then some ex else lookupExample key rest

/-- The input widgets touched by `restore_code`: the `code-editor` textarea
and the `args-input` field. -/
structure EditorUI where
  editor : String
  argsInput : String
deriving Repr, DecidableEq

/-- `MMIXPlayground.restore_code` (lines 217-233): restore the auto-saved
code when non-empty, otherwise fall back to the "hello" example when it
exists; then restore the auto-saved args when non-empty. -/
def restore_code (s : Store) (examples : List (String × Example)) (ui : EditorUI) : EditorUI :=
  let saved_code := StorageManager.load_current_code s
  let ui :=
    if saved_code ≠ "" then { ui with editor := saved_code }
    else
      match lookupExample "hello" examples with
      | some ex => { ui with editor := ex.code }
      | none => ui
  let saved_args := StorageManager.load_current_args s
  if saved_args ≠ "" then { ui with argsInput := saved_args } else ui

/-- The output side of the page as touched by the run handlers: the three
panes (`listing-output`, `simulation-output`, `error-output`) and which tab
is active (`switch_tab` gives the `active` class to exactly one). -/
structure OutUI where
  listingText : String
  outputText : String
  errorText : String
  activeTab : String
deriving Repr, DecidableEq

/-- `switch_tab` (lines 963-984): mark one tab/pane pair active. -/
def switch_tab (tab_name : String) (ui : OutUI) : OutUI :=
  { ui with activeTab := tab_name }

/-- `show_listing` (lines 986-989): set the listing pane and switch to it. -/
def show_listing (listing : String) (ui : OutUI) : OutUI :=
  switch_tab "listing" { ui with listingText := listing }

/-- `show_output` (lines 991-993): set the simulation output pane. -/
def show_output (output : String) (ui : OutUI) : OutUI :=
  { ui with outputText := output }

/-- `show_error` (lines 995-997): set the error pane. -/
def show_error (error : String) (ui : OutUI) : OutUI :=
  { ui with errorText := error }

/-- `clear_output` (lines 999-1003): blank all three panes. -/
def clear_output (ui : OutUI) : OutUI :=
  { ui with listingText := "", outputText := "", errorText := "" }

/-- The dict returned by `MMIXPlayground.assemble`: `error` is `some` only
on the exception path (lines 672-676), where the other fields are absent or
defaulted. `object_code` is `none` when `/output.mmo` could not be read. -/
structure AsmResult where
  success : Bool
  listing : String := ""
  object_code : Option String := none
  exit_code : Int := 0
  console_output : String := ""
  error : Option String := none
deriving Repr, DecidableEq

/-- The dict returned by `MMIXPlayground.run_simulation`: `error` is `some`
only on the exception path (lines 808-812). -/
structure SimResult where
  success : Bool
  output : String := ""
  exit_code : Int := 0
  error : Option String := none
deriving Repr, DecidableEq

/-- What the external `mmixal` module did when `assemble` drove it: the
`callMain` exit code, the bytes read back from `/output.lst` and
`/output.mmo` (absent when the read raised), and the lines captured by the
print callbacks. -/
structure AsmOutcome where
  exitCode : Int
  listing : String
  objectCode : Option String
  consoleOutput : List String
deriving Repr, DecidableEq

/-- `has_object_code` (lines 653-657): the object code is valid when it was
read and is non-empty. -/
def has_object_code : Option String → Bool
  | none => false
  | some oc => decide (0 < oc.length)

/-- The result dict built by `MMIXPlayground.assemble` (lines 661-667) on
the non-exception path, from what the external assembler module did. -/
def assemble (outcome : AsmOutcome) : AsmResult :=
  { success := outcome.exitCode = 0 && has_object_code outcome.objectCode
    listing := outcome.listing
    object_code := outcome.objectCode
    exit_code := outcome.exitCode
    console_output := String.intercalate "\n" outcome.consoleOutput }

/-- The result dict built by `assemble` on its exception path
(lines 668-676). -/
def assemble_exception (msg : String) : AsmResult :=
  { success := false, error := some msg, console_output := "" }

/-- What the external `mmix` module did when `run_simulation` drove it: the
`callMain` exit code and the strings pushed onto
`window.mmixOutputCapture` by the print callback (each already has the
`'\n'` the callback appends). -/
structure SimOutcome where
  exitCode : Int
  captured : List String
deriving Repr, DecidableEq

/-- The user-argument handling of `run_simulation` (lines 738-743):
`strip()` the args input, and when non-empty split it on whitespace,
keeping only non-empty pieces. -/
def splitArgs (argsInputValue : String) : List String :=
  let args_input := argsInputValue.trim
  if args_input = "" then []
  else (args_input.split Char.isWhitespace).filter (fun arg => arg ≠ "")

/-- One `FS.writeFile(path, content)` call on the simulator module's
filesystem, and the final `callMain` argument list: everything
`run_simulation` does to the module before and at its main entry point. -/
structure SimCall where
  fsWrites : List (String × String)
  mainArgs : List String
deriving Repr, DecidableEq

/-- `MMIXPlayground.run_simulation` (lines 678-803), non-exception path.
The `SimCall` component records the module-filesystem writes in program
order (uploaded files at `/<name>` (lines 710-718), saved programs at
`/<name>.mms` (lines 720-729), then the object code at `/program.mmo`
(line 732)) and the `callMain` argument list `["-q", "/program.mmo"] ++
user args` (lines 750-755): all writes happen before `callMain` runs.  The
`SimResult` component is the returned dict (lines 781-803): the captured
output joined (with the placeholder when empty) and
`success = (0 <= exit_code < 128)`. -/
def run_simulation (s : Store) (argsInputValue : String) (objectCode : String)
    (outcome : SimOutcome) : SimCall × SimResult :=
  let uploaded_files := StorageManager.get_uploaded_files s
  let uploadWrites := uploaded_files.map (fun f => ("/" ++ f.name, f.content))
  let saved_programs := StorageManager.get_programs s
  let programWrites := saved_programs.map (fun p => ("/" ++ p.name ++ ".mms", p.code))
  let writes := uploadWrites ++ programWrites ++ [("/program.mmo", objectCode)]
  let user_args := splitArgs argsInputValue
  let args_list := ["-q", "/program.mmo"] ++ user_args
  let output := String.join outcome.captured
  let output := if output = "" then "(Program completed with no output)" else output
  let is_success := decide (0 ≤ outcome.exitCode) && decide (outcome.exitCode < 128)
  (⟨writes, args_list⟩,
   { success := is_success, output := output, exit_code := outcome.exitCode })

/-- The result dict built by `run_simulation` on its exception path
(lines 804-812). -/
def run_simulation_exception (msg : String) : SimResult :=
  { success := false, error := some msg, output := "" }

/-- The error message `_do_assemble_and_run` builds when assembly fails
(lines 888-890): `result.get("error", "Assembly failed")`, with the
console output appended when non-empty. -/
def assembly_error_message (asm : AsmResult) : String :=
  let error_msg := asm.error.getD "Assembly failed"
  if asm.console_output ≠ "" then error_msg ++ "\n\n" ++ asm.console_output
  else error_msg

/-- The error message `_do_assemble_and_run` builds when the simulation
fails (lines 916-918): `sim_result.get("error", "Simulation failed")`,
with the simulator output appended when non-empty. -/
def simulation_error_message (sim : SimResult) : String :=
  let error_msg := sim.error.getD "Simulation failed"
  if sim.output ≠ "" then error_msg ++ "\n\n" ++ sim.output
  else error_msg

/-- `MMIXPlayground._do_assemble_and_run` (lines 874-921) as its effect on
the output panes and active tab: switch to the output tab, clear the
panes, then branch on the assembly result and — when assembly succeeded —
on the simulation result.  `asm` is the dict `await self.assemble(code)`
produced and `sim` the dict `await self.run_simulation(...)` produced
(the latter is only consulted when `asm.success`). -/
def do_assemble_and_run (asm : AsmResult) (sim : SimResult) (ui : OutUI) : OutUI :=
  let ui := switch_tab "output" ui
  let ui := clear_output ui
  if asm.success = false then
    switch_tab "errors" (show_error (assembly_error_message asm) ui)
  else
    let ui := { ui with listingText := asm.listing }
    let ui :=
      if asm.console_output ≠ "" then
        show_error ("Assembly output:\n" ++ asm.console_output) ui
      else ui
    if sim.success then
      let output_text :=
        if sim.output = "" then "(Program completed with no output)" else sim.output
      switch_tab "output" (show_output output_text ui)
    else
      switch_tab "errors" (show_error (simulation_error_message sim) ui)

/-- One StorageManager mutation, for reasoning about arbitrary operation
sequences on the two stored lists. -/
inductive StorageOp where
  | saveProg (name code : String) (ts : Nat)
  | delProg (name : String)
  | saveFile (name content : String)
  | delFile (name : String)
deriving Repr, DecidableEq

/-- Apply one mutation to the store, discarding the boolean result. -/
def applyOp (op : StorageOp) (s : Store) : Store :=
  match op with
  | .saveProg name code ts => (StorageManager.save_program name code ts s).2
  | .delProg name => (StorageManager.delete_program name s).2
  | .saveFile name content => (StorageManager.save_uploaded_file name content s).2
  | .delFile name => (StorageManager.delete_uploaded_file name s).2

/-- Apply a sequence of mutations left to right. -/
def applyOps (ops : List StorageOp) (s : Store) : Store :=
  ops.foldl (fun s op => applyOp op s) s

/-- The key-uniqueness invariant of the two stored lists: no two programs
share a name and no two uploaded files share a name. -/
def StoreInv (s : Store) : Prop :=
  ((StorageManager.get_programs s).map Program.name).Nodup ∧
  ((StorageManager.get_uploaded_files s).map UploadedFile.name).Nodup

section UpdateLemmas

lemma updateProgram_filter_not (name code : String) (ts : Nat) (l : List Program) :
    (StorageManager.updateProgram name code ts l).filter (fun p => p.name ≠ name) =
      l.filter (fun p => p.name ≠ name) := by
  induction l with
  | nil => simp [StorageManager.updateProgram]
  | cons p rest ih =>
      by_cases hp : p.name = name
      · simp [StorageManager.updateProgram, hp]
      · simp only [ne_eq, decide_not] at ih ⊢
        simp [StorageManager.updateProgram, hp, ih]

lemma updateProgram_filter_eq (name code : String) (ts : Nat) (l : List Program)
    (h : (l.map Program.name).Nodup) :
    (StorageManager.updateProgram name code ts l).filter (fun p => p.name = name) =
      [⟨name, code, ts⟩] := by
  induction l with
  | nil => simp [StorageManager.updateProgram]
  | cons p rest ih =>
      rw [List.map_cons, List.nodup_cons] at h
      obtain ⟨hnotin, hrest⟩ := h
      by_cases hp : p.name = name
      · have hnone : rest.filter (fun q => q.name = name) = [] := by
          refine List.filter_eq_nil_iff.mpr ?_
          intro q hq
          simp only [decide_eq_true_eq]
          intro hqname
          exact hnotin (hp ▸ hqname ▸ List.mem_map_of_mem Program.name hq)
        simp [StorageManager.updateProgram, hp, hnone]
      · simp [StorageManager.updateProgram, hp, ih hrest]

lemma updateProgram_map_name (name code : String) (ts : Nat) (l : List Program) :
    (StorageManager.updateProgram name code ts l).map Program.name =
      if name ∈ l.map Program.name then l.map Program.name
      else l.map Program.name ++ [name] := by
  induction l with
  | nil => simp [StorageManager.updateProgram]
  | cons p rest ih =>
      by_cases hp : p.name = name
      · simp [StorageManager.updateProgram, hp]
      · have hne : ¬name = p.name := fun hh => hp hh.symm
        by_cases hmem : name ∈ rest.map Program.name
        · simp [StorageManager.updateProgram, hp, ih, hmem, hne]
        · simp [StorageManager.updateProgram, hp, ih, hmem, hne]

lemma updateProgram_not_mem (name code : String) (ts : Nat) (l : List Program)
    (h : name ∉ l.map Program.name) :
    StorageManager.updateProgram name code ts l = l ++ [⟨name, code, ts⟩] := by
  induction l with
  | nil => simp [StorageManager.updateProgram]
  | cons p rest ih =>
      have hp : ¬p.name = name := by
        intro hp
        exact h (by simp [hp])
      have hrest : name ∉ rest.map Program.name := fun hmem => h (by simp [hmem])
      simp [StorageManager.updateProgram, hp, ih hrest]

lemma updateProgram_nodup (name code : String) (ts : Nat) (l : List Program)
    (h : (l.map Program.name).Nodup) :
    ((StorageManager.updateProgram name code ts l).map Program.name).Nodup := by
  rw [updateProgram_map_name]
  by_cases hmem : name ∈ l.map Program.name
  · simpa [hmem] using h
  · simp [hmem, List.nodup_append, h]

lemma updateFile_filter_not (filename content : String) (l : List UploadedFile) :
    (StorageManager.updateFile filename content l).filter (fun f => f.name ≠ filename) =
      l.filter (fun f => f.name ≠ filename) := by
  induction l with
  | nil => simp [StorageManager.updateFile]
  | cons f rest ih =>
      by_cases hf : f.name = filename
      · simp [StorageManager.updateFile, hf]
      · simp only [ne_eq, decide_not] at ih ⊢
        simp [StorageManager.updateFile, hf, ih]

lemma updateFile_filter_eq (filename content : String) (l : List UploadedFile)
    (h : (l.map UploadedFile.name).Nodup) :
    (StorageManager.updateFile filename content l).filter (fun f => f.name = filename) =
      [⟨filename, content⟩] := by
  induction l with
  | nil => simp [StorageManager.updateFile]
  | cons f rest ih =>
      rw [List.map_cons, List.nodup_cons] at h
      obtain ⟨hnotin, hrest⟩ := h
      by_cases hf : f.name = filename
      · have hnone : rest.filter (fun g => g.name = filename) = [] := by
          refine List.filter_eq_nil_iff.mpr ?_
          intro g hg
          simp only [decide_eq_true_eq]
          intro hgname
          exact hnotin (hf ▸ hgname ▸ List.mem_map_of_mem UploadedFile.name hg)
        simp [StorageManager.updateFile, hf, hnone]
      · simp [StorageManager.updateFile, hf, ih hrest]

lemma updateFile_mem (filename content : String) (l : List UploadedFile) :
    (⟨filename, content⟩ : UploadedFile) ∈ StorageManager.updateFile filename content l := by
  induction l with
  | nil => simp [StorageManager.updateFile]
  | cons f rest ih =>
      by_cases hf : f.name = filename
      · simp [StorageManager.updateFile, hf]
      · simp [StorageManager.updateFile, hf, ih]

lemma updateFile_map_name (filename content : String) (l : List UploadedFile) :
    (StorageManager.updateFile filename content l).map UploadedFile.name =
      if filename ∈ l.map UploadedFile.name then l.map UploadedFile.name
      else l.map UploadedFile.name ++ [filename] := by
  induction l with
  | nil => simp [StorageManager.updateFile]
  | cons f rest ih =>
      by_cases hf : f.name = filename
      · simp [StorageManager.updateFile, hf]
      · have hne : ¬filename = f.name := fun hh => hf hh.symm
        by_cases hmem : filename ∈ rest.map UploadedFile.name
        · simp [StorageManager.updateFile, hf, ih, hmem, hne]
        · simp [StorageManager.updateFile, hf, ih, hmem, hne]

lemma updateFile_not_mem (filename content : String) (l : List UploadedFile)
    (h : filename ∉ l.map UploadedFile.name) :
    StorageManager.updateFile filename content l = l ++ [⟨filename, content⟩] := by
  induction l with
  | nil => simp [StorageManager.updateFile]
  | cons f rest ih =>
      have hf : ¬f.name = filename := by
        intro hf
        exact h (by simp [hf])
      have hrest : filename ∉ rest.map UploadedFile.name := fun hmem => h (by simp [hmem])
      simp [StorageManager.updateFile, hf, ih hrest]

lemma updateFile_nodup (filename content : String) (l : List UploadedFile)
    (h : (l.map UploadedFile.name).Nodup) :
    ((StorageManager.updateFile filename content l).map UploadedFile.name).Nodup := by
  rw [updateFile_map_name]
  by_cases hmem : filename ∈ l.map UploadedFile.name
  · simpa [hmem] using h
  · simp [hmem, List.nodup_append, h]

end UpdateLemmas

section StoreLemmas

lemma save_program_fst (name code : String) (ts : Nat) (s : Store) :
    (StorageManager.save_program name code ts s).1 = !s.fail := by
  cases hf : s.fail <;> simp [StorageManager.save_program, hf]

lemma save_program_get (name code : String) (ts : Nat) (s : Store) (h : s.fail = false) :
    StorageManager.get_programs (StorageManager.save_program name code ts s).2 =
      StorageManager.updateProgram name code ts (StorageManager.get_programs s) := by
  simp [StorageManager.save_program, StorageManager.get_programs, h]

lemma delete_program_fst (name : String) (s : Store) :
    (StorageManager.delete_program name s).1 = !s.fail := by
  cases hf : s.fail <;> simp [StorageManager.delete_program, hf]

lemma delete_program_get (name : String) (s : Store) (h : s.fail = false) :
    StorageManager.get_programs (StorageManager.delete_program name s).2 =
      (StorageManager.get_programs s).filter (fun p => p.name ≠ name) := by
  simp [StorageManager.delete_program, StorageManager.get_programs, h]

lemma save_uploaded_file_fst (filename content : String) (s : Store) :
    (StorageManager.save_uploaded_file filename content s).1 = !s.fail := by
  cases hf : s.fail <;> simp [StorageManager.save_uploaded_file, hf]

lemma save_uploaded_file_get (filename content : String) (s : Store) (h : s.fail = false) :
    StorageManager.get_uploaded_files (StorageManager.save_uploaded_file filename content s).2 =
      StorageManager.updateFile filename content (StorageManager.get_uploaded_files s) := by
  simp [StorageManager.save_uploaded_file, StorageManager.get_uploaded_files, h]

lemma delete_uploaded_file_fst (filename : String) (s : Store) :
    (StorageManager.delete_uploaded_file filename s).1 = !s.fail := by
  cases hf : s.fail <;> simp [StorageManager.delete_uploaded_file, hf]

lemma delete_uploaded_file_get (filename : String) (s : Store) (h : s.fail = false) :
    StorageManager.get_uploaded_files (StorageManager.delete_uploaded_file filename s).2 =
      (StorageManager.get_uploaded_files s).filter (fun f => f.name ≠ filename) := by
  simp [StorageManager.delete_uploaded_file, StorageManager.get_uploaded_files, h]

lemma applyOp_inv (op : StorageOp) (s : Store) (h : StoreInv s) : StoreInv (applyOp op s) := by
  obtain ⟨hp, hf⟩ := h
  cases hfail : s.fail
  · cases op with
    | saveProg name code ts =>
        refine ⟨?_, ?_⟩
        · rw [show applyOp (.saveProg name code ts) s =
              (StorageManager.save_program name code ts s).2 from rfl,
            save_program_get name code ts s hfail]
          exact updateProgram_nodup name code ts _ hp
        · simpa [applyOp, StorageManager.save_program, StorageManager.get_uploaded_files,
            hfail] using hf
    | delProg name =>
        refine ⟨?_, ?_⟩
        · rw [show applyOp (.delProg name) s = (StorageManager.delete_program name s).2 from rfl,
            delete_program_get name s hfail]
          exact ((List.filter_sublist _).map Program.name).nodup hp
        · simpa [applyOp, StorageManager.delete_program, StorageManager.get_uploaded_files,
            hfail] using hf
    | saveFile name content =>
        refine ⟨?_, ?_⟩
        · simpa [applyOp, StorageManager.save_uploaded_file, StorageManager.get_programs,
            hfail] using hp
        · rw [show applyOp (.saveFile name content) s =
              (StorageManager.save_uploaded_file name content s).2 from rfl,
            save_uploaded_file_get name content s hfail]
          exact updateFile_nodup name content _ hf
    | delFile name =>
        refine ⟨?_, ?_⟩
        · simpa [applyOp, StorageManager.delete_uploaded_file, StorageManager.get_programs,
            hfail] using hp
        · rw [show applyOp (.delFile name) s =
              (StorageManager.delete_uploaded_file name s).2 from rfl,
            delete_uploaded_file_get name s hfail]
          exact ((List.filter_sublist _).map UploadedFile.name).nodup hf
  · cases op <;>
      simpa [applyOp, StorageManager.save_program, StorageManager.delete_program,
        StorageManager.save_uploaded_file, StorageManager.delete_uploaded_file, hfail]
        using And.intro hp hf

lemma applyOps_inv (ops : List StorageOp) (s : Store) (h : StoreInv s) :
    StoreInv (applyOps ops s) := by
  induction ops generalizing s with
  | nil => simpa [applyOps] using h
  | cons op rest ih =>
      have : applyOps (op :: rest) s = applyOps rest (applyOp op s) := by
        simp [applyOps, List.foldl_cons]
      rw [this]
      exact ih _ (applyOp_inv op s h)

end StoreLemmas

/-- C1: after `save_program name code` returns `True`, `get_programs`
contains exactly one entry named `name`, carrying the new `code` (and
timestamp); an existing entry is updated in place (the other entries and
the name order are untouched), otherwise the new entry is appended, so
`save_program` never creates a duplicate name.  The no-duplicates
hypothesis on the pre-state is the invariant every store reachable from
empty satisfies (see the C8 theorem). -/
theorem mmix_c1_save_program_updates (name code : String) (ts : Nat) (s : Store)
    (hsucc : (StorageManager.save_program name code ts s).1 = true)
    (hnodup : ((StorageManager.get_programs s).map Program.name).Nodup) :
    ((StorageManager.get_programs (StorageManager.save_program name code ts s).2).filter
        (fun p => p.name = name) = [⟨name, code, ts⟩]) ∧
    ((StorageManager.get_programs (StorageManager.save_program name code ts s).2).filter
        (fun p => p.name ≠ name) =
      (StorageManager.get_programs s).filter (fun p => p.name ≠ name)) ∧
    (name ∈ (StorageManager.get_programs s).map Program.name →
      (StorageManager.get_programs (StorageManager.save_program name code ts s).2).map
          Program.name = (StorageManager.get_programs s).map Program.name) ∧
    (name ∉ (StorageManager.get_programs s).map Program.name →
      StorageManager.get_programs (StorageManager.save_program name code ts s).2 =
        StorageManager.get_programs s ++ [⟨name, code, ts⟩]) := by
  have hfail : s.fail = false := by
    rw [save_program_fst] at hsucc
    simpa using hsucc
  rw [save_program_get name code ts s hfail]
  refine ⟨updateProgram_filter_eq name code ts _ hnodup,
    updateProgram_filter_not name code ts _, ?_, updateProgram_not_mem name code ts _⟩
  intro hmem
  rw [updateProgram_map_name]
  simp [hmem]

/-- C1 witness: saving into an empty store at a concrete name. -/
theorem mmix_c1_save_program_updates_witness :
    (StorageManager.get_programs
        (StorageManager.save_program "fib" "% fib code" 7 Store.empty).2).filter
      (fun p => p.name = "fib") = [⟨"fib", "% fib code", 7⟩] :=
  (mmix_c1_save_program_updates "fib" "% fib code" 7 Store.empty rfl (by decide)).1

/-- C2: after `delete_program name` returns `True`, `get_programs` has no
entry named `name` and is exactly the original list with the entries named
`name` removed (everything else unchanged and in order); likewise for
`delete_uploaded_file` and `get_uploaded_files`. -/
theorem mmix_c2_delete_removes_only_name (name filename : String) (s : Store)
    (hp : (StorageManager.delete_program name s).1 = true)
    (hf : (StorageManager.delete_uploaded_file filename s).1 = true) :
    (∀ p ∈ StorageManager.get_programs (StorageManager.delete_program name s).2,
      p.name ≠ name) ∧
    (StorageManager.get_programs (StorageManager.delete_program name s).2 =
      (StorageManager.get_programs s).filter (fun p => p.name ≠ name)) ∧
    (∀ f ∈ StorageManager.get_uploaded_files (StorageManager.delete_uploaded_file filename s).2,
      f.name ≠ filename) ∧
    (StorageManager.get_uploaded_files (StorageManager.delete_uploaded_file filename s).2 =
      (StorageManager.get_uploaded_files s).filter (fun f => f.name ≠ filename)) := by
  have hfail : s.fail = false := by
    rw [delete_program_fst] at hp
    simpa using hp
  rw [delete_program_get name s hfail, delete_uploaded_file_get filename s hfail]
  refine ⟨?_, rfl, ?_, rfl⟩
  · intro p hpmem
    exact of_decide_eq_true (List.mem_filter.mp hpmem).2
  · intro f hfmem
    exact of_decide_eq_true (List.mem_filter.mp hfmem).2

/-- C2 witness: deleting "a" from a two-program store keeps exactly the
other program, and deleting an uploaded file empties a one-file store. -/
theorem mmix_c2_delete_removes_only_name_witness :
    StorageManager.get_programs (StorageManager.delete_program "a"
      { programs := some [⟨"a", "x", 0⟩, ⟨"b", "y", 1⟩],
        uploadedFiles := some [⟨"d.txt", "DATA"⟩] }).2 = [⟨"b", "y", 1⟩] ∧
    StorageManager.get_uploaded_files (StorageManager.delete_uploaded_file "d.txt"
      { programs := some [⟨"a", "x", 0⟩, ⟨"b", "y", 1⟩],
        uploadedFiles := some [⟨"d.txt", "DATA"⟩] }).2 = [] := by
  have h := mmix_c2_delete_removes_only_name "a" "d.txt"
    { programs := some [⟨"a", "x", 0⟩, ⟨"b", "y", 1⟩],
      uploadedFiles := some [⟨"d.txt", "DATA"⟩] } rfl rfl
  refine ⟨?_, ?_⟩
  · rw [h.2.1]
    decide
  · rw [h.2.2.2]
    decide

/-- C3: when localStorage works, `load_current_code` after
`save_current_code code` returns `code`, and `load_current_code` returns
`""` when the stored value is absent or empty; likewise for the args
pair. -/
theorem mmix_c3_current_roundtrip (code args : String) (s : Store) (h : s.fail = false) :
    StorageManager.load_current_code (StorageManager.save_current_code code s) = code ∧
    StorageManager.load_current_args (StorageManager.save_current_args args s) = args ∧
    ((s.currentCode = none ∨ s.currentCode = some "") →
      StorageManager.load_current_code s = "") ∧
    ((s.currentArgs = none ∨ s.currentArgs = some "") →
      StorageManager.load_current_args s = "") := by
  refine ⟨?_, ?_, ?_, ?_⟩
  · by_cases hc : code = "" <;>
      simp [StorageManager.save_current_code, StorageManager.load_current_code, h, hc]
  · by_cases ha : args = "" <;>
      simp [StorageManager.save_current_args, StorageManager.load_current_args, h, ha]
  · rintro (hc | hc) <;> simp [StorageManager.load_current_code, h, hc]
  · rintro (ha | ha) <;> simp [StorageManager.load_current_args, h, ha]

/-- C3 witness: a concrete save/load round trip on a fresh store, plus the
empty-store defaults. -/
theorem mmix_c3_current_roundtrip_witness :
    StorageManager.load_current_code
      (StorageManager.save_current_code " LOC Data_Segment" Store.empty) =
        " LOC Data_Segment" ∧
    StorageManager.load_current_args
      (StorageManager.save_current_args "10 20" Store.empty) = "10 20" ∧
    StorageManager.load_current_code Store.empty = "" := by
  have h := mmix_c3_current_roundtrip " LOC Data_Segment" "10 20" Store.empty rfl
  exact ⟨h.1, h.2.1, h.2.2.1 (Or.inl rfl)⟩

/-- C4: after `save_uploaded_file filename content` returns `True`,
`get_uploaded_files` contains the entry `{name := filename, content :=
content}`; an existing entry with that name is replaced in place (other
entries and the name order untouched), otherwise the entry is appended. -/
theorem mmix_c4_save_uploaded_file_updates (filename content : String) (s : Store)
    (hsucc : (StorageManager.save_uploaded_file filename content s).1 = true) :
    ((⟨filename, content⟩ : UploadedFile) ∈
      StorageManager.get_uploaded_files
        (StorageManager.save_uploaded_file filename content s).2) ∧
    ((StorageManager.get_uploaded_files
        (StorageManager.save_uploaded_file filename content s).2).filter
          (fun f => f.name ≠ filename) =
      (StorageManager.get_uploaded_files s).filter (fun f => f.name ≠ filename)) ∧
    (filename ∈ (StorageManager.get_uploaded_files s).map UploadedFile.name →
      (StorageManager.get_uploaded_files
          (StorageManager.save_uploaded_file filename content s).2).map UploadedFile.name =
        (StorageManager.get_uploaded_files s).map UploadedFile.name) ∧
    (filename ∉ (StorageManager.get_uploaded_files s).map UploadedFile.name →
      StorageManager.get_uploaded_files
          (StorageManager.save_uploaded_file filename content s).2 =
        StorageManager.get_uploaded_files s ++ [⟨filename, content⟩]) := by
  have hfail : s.fail = false := by
    rw [save_uploaded_file_fst] at hsucc
    simpa using hsucc
  rw [save_uploaded_file_get filename content s hfail]
  refine ⟨updateFile_mem filename content _, updateFile_filter_not filename content _, ?_,
    updateFile_not_mem filename content _⟩
  intro hmem
  rw [updateFile_map_name]
  simp [hmem]

/-- C4 witness: re-uploading a file that already exists replaces its
content while keeping the name list unchanged. -/
theorem mmix_c4_save_uploaded_file_updates_witness :
    ((⟨"d.txt", "new"⟩ : UploadedFile) ∈
      StorageManager.get_uploaded_files
        (StorageManager.save_uploaded_file "d.txt" "new"
          { uploadedFiles := some [⟨"d.txt", "old"⟩] }).2) ∧
    (StorageManager.get_uploaded_files
        (StorageManager.save_uploaded_file "d.txt" "new"
          { uploadedFiles := some [⟨"d.txt", "old"⟩] }).2).map UploadedFile.name =
      (StorageManager.get_uploaded_files
        { uploadedFiles := some [⟨"d.txt", "old"⟩] : Store }).map UploadedFile.name := by
  have h := mmix_c4_save_uploaded_file_updates "d.txt" "new"
    { uploadedFiles := some [⟨"d.txt", "old"⟩] } rfl
  exact ⟨h.1, h.2.2.1 (by decide)⟩

/-- C5: `restore_code` sets the editor to the auto-saved code when that
code is non-empty; when nothing non-empty was saved it falls back to the
"hello" example's code when that example exists; the saved args, when
non-empty, are restored into the args input (and left alone otherwise). -/
theorem mmix_c5_restore_code (s : Store) (examples : List (String × Example)) (ui : EditorUI) :
    (StorageManager.load_current_code s ≠ "" →
      (restore_code s examples ui).editor = StorageManager.load_current_code s) ∧
    (StorageManager.load_current_code s = "" →
      ∀ ex, lookupExample "hello" examples = some ex →
        (restore_code s examples ui).editor = ex.code) ∧
    (StorageManager.load_current_args s ≠ "" →
      (restore_code s examples ui).argsInput = StorageManager.load_current_args s) ∧
    (StorageManager.load_current_args s = "" →
      (restore_code s examples ui).argsInput = ui.argsInput) := by
  refine ⟨?_, ?_, ?_, ?_⟩
  · intro hc
    by_cases ha : StorageManager.load_current_args s = "" <;>
      simp [restore_code, hc, ha]
  · intro hc ex hl
    by_cases ha : StorageManager.load_current_args s = "" <;>
      simp [restore_code, hc, ha, hl]
  · intro ha
    by_cases hc : StorageManager.load_current_code s = ""
    · cases hl : lookupExample "hello" examples <;>
        simp [restore_code, hc, ha, hl]
    · simp [restore_code, hc, ha]
  · intro ha
    by_cases hc : StorageManager.load_current_code s = ""
    · cases hl : lookupExample "hello" examples <;>
        simp [restore_code, hc, ha, hl]
    · simp [restore_code, hc, ha]

/-- C5 witness: with saved code and args present both are restored; with
nothing saved the "hello" example's code is loaded. -/
theorem mmix_c5_restore_code_witness :
    (restore_code { currentCode := some "SAVED", currentArgs := some "ar" }
        [("hello", ⟨"Hello World", "HELLOCODE"⟩)] ⟨"", ""⟩).editor = "SAVED" ∧
    (restore_code { currentCode := some "SAVED", currentArgs := some "ar" }
        [("hello", ⟨"Hello World", "HELLOCODE"⟩)] ⟨"", ""⟩).argsInput = "ar" ∧
    (restore_code Store.empty
        [("hello", ⟨"Hello World", "HELLOCODE"⟩)] ⟨"", ""⟩).editor = "HELLOCODE" := by
  have h1 := mmix_c5_restore_code { currentCode := some "SAVED", currentArgs := some "ar" }
    [("hello", ⟨"Hello World", "HELLOCODE"⟩)] ⟨"", ""⟩
  have h2 := mmix_c5_restore_code Store.empty
    [("hello", ⟨"Hello World", "HELLOCODE"⟩)] ⟨"", ""⟩
  exact ⟨h1.1 (by decide), h1.2.2.1 (by decide),
    h2.2.1 rfl ⟨"Hello World", "HELLOCODE"⟩ rfl⟩

/-- C6: before `run_simulation` calls the simulator's main entry point it
writes every uploaded file at `/<name>`, every saved program at
`/<name>.mms`, and the object code at `/program.mmo` into the module
filesystem, and then `callMain` receives `["-q", "/program.mmo"]` followed
by the whitespace-split user arguments. -/
theorem mmix_c6_run_simulation_setup (s : Store) (argsInputValue objectCode : String)
    (outcome : SimOutcome) :
    (∀ f ∈ StorageManager.get_uploaded_files s,
      ("/" ++ f.name, f.content) ∈
        (run_simulation s argsInputValue objectCode outcome).1.fsWrites) ∧
    (∀ p ∈ StorageManager.get_programs s,
      ("/" ++ p.name ++ ".mms", p.code) ∈
        (run_simulation s argsInputValue objectCode outcome).1.fsWrites) ∧
    ("/program.mmo", objectCode) ∈
      (run_simulation s argsInputValue objectCode outcome).1.fsWrites ∧
    (run_simulation s argsInputValue objectCode outcome).1.mainArgs =
      ["-q", "/program.mmo"] ++ splitArgs argsInputValue := by
  refine ⟨?_, ?_, ?_, rfl⟩
  · intro f hf
    exact List.mem_append.mpr (Or.inl (List.mem_append.mpr
      (Or.inl (List.mem_map_of_mem _ hf))))
  · intro p hp
    exact List.mem_append.mpr (Or.inl (List.mem_append.mpr
      (Or.inr (List.mem_map_of_mem _ hp))))
  · exact List.mem_append.mpr (Or.inr (List.mem_singleton.mpr rfl))

/-- C6 witness: a store with one uploaded file and one saved program. -/
theorem mmix_c6_run_simulation_setup_witness :
    ("/data.txt", "1 2 3") ∈
      (run_simulation
        { programs := some [⟨"lib", "LIBCODE", 0⟩],
          uploadedFiles := some [⟨"data.txt", "1 2 3"⟩] }
        " 10  20 " "OBJ" ⟨0, []⟩).1.fsWrites ∧
    ("/lib.mms", "LIBCODE") ∈
      (run_simulation
        { programs := some [⟨"lib", "LIBCODE", 0⟩],
          uploadedFiles := some [⟨"data.txt", "1 2 3"⟩] }
        " 10  20 " "OBJ" ⟨0, []⟩).1.fsWrites ∧
    ("/program.mmo", "OBJ") ∈
      (run_simulation
        { programs := some [⟨"lib", "LIBCODE", 0⟩],
          uploadedFiles := some [⟨"data.txt", "1 2 3"⟩] }
        " 10  20 " "OBJ" ⟨0, []⟩).1.fsWrites ∧
    (run_simulation
        { programs := some [⟨"lib", "LIBCODE", 0⟩],
          uploadedFiles := some [⟨"data.txt", "1 2 3"⟩] }
        " 10  20 " "OBJ" ⟨0, []⟩).1.mainArgs =
      ["-q", "/program.mmo"] ++ splitArgs " 10  20 " := by
  have h := mmix_c6_run_simulation_setup
    { programs := some [⟨"lib", "LIBCODE", 0⟩],
      uploadedFiles := some [⟨"data.txt", "1 2 3"⟩] } " 10  20 " "OBJ" ⟨0, []⟩
  exact ⟨h.1 ⟨"data.txt", "1 2 3"⟩ (by decide), h.2.1 ⟨"lib", "LIBCODE", 0⟩ (by decide),
    h.2.2.1, h.2.2.2⟩

/-- C7: after assemble-and-run, when assembly succeeds the listing pane
shows the assembler's listing; when the simulation then succeeds the
output pane shows the simulator's captured output (with the
"(Program completed with no output)" placeholder for empty output) and the
output tab is active; when assembly or the simulation fails the error pane
shows the corresponding error message and the errors tab is active. -/
theorem mmix_c7_assemble_and_run_display (asm : AsmResult) (sim : SimResult) (ui : OutUI) :
    (asm.success = true → (do_assemble_and_run asm sim ui).listingText = asm.listing) ∧
    (asm.success = true → sim.success = true →
      (do_assemble_and_run asm sim ui).outputText =
        (if sim.output = "" then "(Program completed with no output)" else sim.output) ∧
      (do_assemble_and_run asm sim ui).activeTab = "output") ∧
    (asm.success = false →
      (do_assemble_and_run asm sim ui).errorText = assembly_error_message asm ∧
      (do_assemble_and_run asm sim ui).activeTab = "errors") ∧
    (asm.success = true → sim.success = false →
      (do_assemble_and_run asm sim ui).errorText = simulation_error_message sim ∧
      (do_assemble_and_run asm sim ui).activeTab = "errors") := by
  refine ⟨?_, ?_, ?_, ?_⟩
  · intro hasm
    by_cases hco : asm.console_output = "" <;>
      cases hsim : sim.success <;>
        by_cases ho : sim.output = "" <;>
          simp [do_assemble_and_run, switch_tab, clear_output, show_error, show_output,
            hasm, hco, hsim, ho]
  · intro hasm hsim
    by_cases hco : asm.console_output = "" <;>
      by_cases ho : sim.output = "" <;>
        simp [do_assemble_and_run, switch_tab, clear_output, show_error, show_output,
          hasm, hco, hsim, ho]
  · intro hasm
    simp [do_assemble_and_run, switch_tab, clear_output, show_error, hasm]
  · intro hasm hsim
    by_cases hco : asm.console_output = "" <;>
      simp [do_assemble_and_run, switch_tab, clear_output, show_error, show_output,
        hasm, hsim, hco]

/-- C7 witness: a successful assembly followed by a successful run shows
the listing and the output with the output tab active; a failed assembly
shows the error with the errors tab active. -/
theorem mmix_c7_assemble_and_run_display_witness :
    (do_assemble_and_run { success := true, listing := "LST" }
        { success := true, output := "Hello\n" } ⟨"", "", "", "listing"⟩).listingText =
      "LST" ∧
    (do_assemble_and_run { success := true, listing := "LST" }
        { success := true, output := "Hello\n" } ⟨"", "", "", "listing"⟩).outputText =
      "Hello\n" ∧
    (do_assemble_and_run { success := true, listing := "LST" }
        { success := true, output := "Hello\n" } ⟨"", "", "", "listing"⟩).activeTab =
      "output" ∧
    (do_assemble_and_run { success := false, console_output := "line err" }
        { success := true, output := "Hello\n" } ⟨"", "", "", "listing"⟩).errorText =
      assembly_error_message { success := false, console_output := "line err" } ∧
    (do_assemble_and_run { success := false, console_output := "line err" }
        { success := true, output := "Hello\n" } ⟨"", "", "", "listing"⟩).activeTab =
      "errors" := by
  have hok := mmix_c7_assemble_and_run_display { success := true, listing := "LST" }
    { success := true, output := "Hello\n" } ⟨"", "", "", "listing"⟩
  have hbad := mmix_c7_assemble_and_run_display
    { success := false, console_output := "line err" }
    { success := true, output := "Hello\n" } ⟨"", "", "", "listing"⟩
  refine ⟨hok.1 rfl, ?_, (hok.2.1 rfl rfl).2, (hbad.2.2.1 rfl).1, (hbad.2.2.1 rfl).2⟩
  have h := (hok.2.1 rfl rfl).1
  rw [h]
  decide

/-- C8: starting from the empty store, no sequence of save/delete
operations ever produces two programs with the same name or two uploaded
files with the same name. -/
theorem mmix_c8_name_uniqueness (ops : List StorageOp) :
    ((StorageManager.get_programs (applyOps ops Store.empty)).map Program.name).Nodup ∧
    ((StorageManager.get_uploaded_files
        (applyOps ops Store.empty)).map UploadedFile.name).Nodup :=
  applyOps_inv ops Store.empty ⟨by decide, by decide⟩

/-- C8 witness: a concrete sequence that saves the same program name
twice, saves a file, and deletes a program. -/
theorem mmix_c8_name_uniqueness_witness :
    ((StorageManager.get_programs (applyOps
        [StorageOp.saveProg "a" "x" 0, StorageOp.saveProg "b" "y" 1,
         StorageOp.saveProg "a" "z" 2, StorageOp.saveFile "f" "c",
         StorageOp.delProg "b"] Store.empty)).map Program.name).Nodup ∧
    ((StorageManager.get_uploaded_files (applyOps
        [StorageOp.saveProg "a" "x" 0, StorageOp.saveProg "b" "y" 1,
         StorageOp.saveProg "a" "z" 2, StorageOp.saveFile "f" "c",
         StorageOp.delProg "b"] Store.empty)).map UploadedFile.name).Nodup :=
  mmix_c8_name_uniqueness
    [StorageOp.saveProg "a" "x" 0, StorageOp.saveProg "b" "y" 1,
     StorageOp.saveProg "a" "z" 2, StorageOp.saveFile "f" "c",
     StorageOp.delProg "b"]

/-- C9: every StorageManager method is a total function; when the
underlying localStorage raises, the loaders return `""`, the list getters
return `[]`, and the four mutators return `False`; the mutators return
`True` exactly when the write completed. -/
theorem mmix_c9_error_handling (s : Store) (name code fname content : String) (ts : Nat) :
    (s.fail = true →
      StorageManager.load_current_code s = "" ∧
      StorageManager.load_current_args s = "" ∧
      StorageManager.get_programs s = [] ∧
      StorageManager.get_uploaded_files s = [] ∧
      (StorageManager.save_program name code ts s).1 = false ∧
      (StorageManager.delete_program name s).1 = false ∧
      (StorageManager.save_uploaded_file fname content s).1 = false ∧
      (StorageManager.delete_uploaded_file fname s).1 = false) ∧
    (s.fail = false →
      (StorageManager.save_program name code ts s).1 = true ∧
      (StorageManager.delete_program name s).1 = true ∧
      (StorageManager.save_uploaded_file fname content s).1 = true ∧
      (StorageManager.delete_uploaded_file fname s).1 = true) := by
  constructor <;> intro hfail <;>
    simp [StorageManager.load_current_code, StorageManager.load_current_args,
      StorageManager.get_programs, StorageManager.get_uploaded_files,
      StorageManager.save_program, StorageManager.delete_program,
      StorageManager.save_uploaded_file, StorageManager.delete_uploaded_file, hfail]

/-- C9 witness: the defaults on a raising store, and a completing write. -/
theorem mmix_c9_error_handling_witness :
    StorageManager.get_programs { fail := true } = [] ∧
    StorageManager.load_current_code { fail := true } = "" ∧
    (StorageManager.save_program "p" "c" 0 { fail := true }).1 = false ∧
    (StorageManager.save_program "p" "c" 0 Store.empty).1 = true := by
  have hbad := mmix_c9_error_handling { fail := true } "p" "c" "f" "x" 0
  have hok := mmix_c9_error_handling Store.empty "p" "c" "f" "x" 0
  exact ⟨(hbad.1 rfl).2.2.1, (hbad.1 rfl).1, (hbad.1 rfl).2.2.2.2.1, (hok.2 rfl).1⟩

/-- C10: `run_simulation` reports success exactly for exit codes in
`[0, 128)`, while `assemble` reports success exactly when the exit code is
0 and the object code was read back non-empty. -/
theorem mmix_c10_success_criteria (s : Store) (argsInputValue objectCode : String)
    (simOutcome : SimOutcome) (asmOutcome : AsmOutcome) :
    ((run_simulation s argsInputValue objectCode simOutcome).2.success = true ↔
      0 ≤ simOutcome.exitCode ∧ simOutcome.exitCode < 128) ∧
    ((assemble asmOutcome).success = true ↔
      asmOutcome.exitCode = 0 ∧
        ∃ bytes, asmOutcome.objectCode = some bytes ∧ 0 < bytes.length) := by
  constructor
  · simp [run_simulation]
  · cases hoc : asmOutcome.objectCode <;>
      simp [assemble, has_object_code, hoc]

/-- C10 witness: exit code 5 with output counts as simulation success, and
exit code 0 with non-empty object code counts as assembly success. -/
theorem mmix_c10_success_criteria_witness :
    (run_simulation Store.empty "" "OBJ" ⟨5, ["hi\n"]⟩).2.success = true ∧
    (assemble ⟨0, "LST", some "OBJBYTES", []⟩).success = true := by
  have h := mmix_c10_success_criteria Store.empty "" "OBJ" ⟨5, ["hi\n"]⟩
    ⟨0, "LST", some "OBJBYTES", []⟩
  exact ⟨h.1.mpr (by decide), h.2.mpr ⟨rfl, "OBJBYTES", rfl, by decide⟩⟩
